import Mathlib

/-!
Verification development for the gcg query engine (`src/gcg/gcg/cli.py`).

The definitions below are a shallow embedding of the query, filtering and
currency-normalization pipeline of the `grep`, `ledger` and `accounts`
commands.  Dates are modelled as integers (linear day count, so
`timedelta(days=1)` is `+ 1`); exact decimal amounts are modelled as `ℚ`;
GnuCash records are modelled as an arena of GUID-linked records.  Regex
compilation is abstracted by an oracle `RegexCompiler` (a pattern either
fails to compile or yields a matcher function); Python `re.search` on an
escaped literal is modelled by substring search.

Functions of this repository that are imported by `cli.py` but whose
sources are not present under `src/` (`gcg/book.py`, `gcg/currency.py`)
are modelled from the spec and marked `Modelled from the spec:` in their
doc comments.
-/

namespace Gcg

/-- A split record: one leg of a transaction, posted to one account
(`value` is the signed amount in the account's commodity). -/
structure Split where
  guid : String
  tx_guid : String
  account_guid : String
  value : ℚ
  memo : Option String
deriving DecidableEq

/-- A transaction record (GUID, posting date as a day count, description). -/
structure Transaction where
  guid : String
  post_date : ℤ
  description : String
deriving DecidableEq

/-- An account record.  `commodity` is the mnemonic of the account's
currency, when the account has one. -/
structure Account where
  guid : String
  fullname : String
  acc_type : String
  commodity : Option String
deriving DecidableEq

/-- One stored exchange-rate entry of the book's price table. -/
structure FxEntry where
  from_cur : String
  to_cur : String
  eff_date : ℤ
  rate : ℚ
deriving DecidableEq

/-- The (read-only) Book Store contents: accounts, transactions, splits,
a notes side table keyed by transaction GUID, and the price table. -/
structure Book where
  accounts : List Account
  transactions : List Transaction
  splits : List Split
  tx_notes : List (String × String)
  prices : List FxEntry
deriving DecidableEq

/-- Book metadata returned at open time. -/
structure BookInfo where
  default_currency : String
  has_notes_column : Bool
  has_slots_notes : Bool
deriving DecidableEq

/-- Configuration values used by the pipeline. -/
structure Config where
  base_currency : String
  fx_lookback_days : ℤ
deriving DecidableEq

/-- `account.splits`: the splits posted to an account, in store order. -/
def acc_splits (book : Book) (a : Account) : List Split :=
  book.splits.filter (fun s => s.account_guid == a.guid)

/-- `split.transaction`: look up the owning transaction by GUID. -/
def tx_of (book : Book) (s : Split) : Transaction :=
  (book.transactions.find? (fun t => t.guid == s.tx_guid)).getD
    ⟨s.tx_guid, 0, ""⟩

/-- `transaction.splits`: all splits of a transaction, in store order. -/
def tx_splits (book : Book) (t : Transaction) : List Split :=
  book.splits.filter (fun s => s.tx_guid == t.guid)

/-- `split.account`: look up the owning account by GUID. -/
def account_of (book : Book) (s : Split) : Account :=
  (book.accounts.find? (fun a => a.guid == s.account_guid)).getD
    ⟨s.account_guid, "", "", none⟩

/-- Modelled from the spec: `get_transaction_notes` lives in
`gcg/book.py`, absent from `src/`; it resolves a transaction's notes text
given its GUID, abstracting the schema-dependent storage location
(section 6 of the spec).  Modelled as a lookup in the book's notes table. -/
def get_transaction_notes (book : Book) (guid : String) : Option String :=
  (book.tx_notes.find? (fun p => p.1 == guid)).map (fun p => p.2)

/-- Case folding used for case-insensitive matching. -/
def lower_str (s : String) : String :=
  String.mk (s.toList.map Char.toLower)

/-- Substring test (`re.search` semantics of an escaped literal). -/
def str_contains (hay needle : String) : Bool :=
  (List.range (hay.length + 1)).any
    (fun i => needle.toList.isPrefixOf (hay.toList.drop i))

/-- A matcher for a literal (non-regex) text pattern, as compiled by
`re.compile(re.escape(text), flags)` in `cmd_grep` (cli.py:443). -/
def lit_matcher (case_sensitive : Bool) (needle : String) : String → Bool :=
  fun hay =>
    if case_sensitive then str_contains hay needle
    else str_contains (lower_str hay) (lower_str needle)

/-- Oracle for `re.compile` on a user-supplied regex: given the pattern
and the case-sensitivity flag, either the pattern fails to compile
(`none`, Python `re.error` / the spec's `InvalidPattern`) or compilation
yields a `search` matcher. -/
def RegexCompiler : Type := String → Bool → Option (String → Bool)

/-- The date window test of the split loops of `cmd_grep` (cli.py:496-499)
and `cmd_ledger` (cli.py:608-611): a split is kept iff its transaction
date is not below `after` (inclusive lower bound) and strictly below
`before` (exclusive upper bound). -/
def date_keep (after before : Option ℤ) (d : ℤ) : Bool :=
  (match after with
   | some a => decide (a ≤ d)
   | none => true)
  && (match before with
      | some b => decide (d < b)
      | none => true)

/-- `resolve_date_filters` (cli.py:352-371): `--after`/`--before` are
taken as given; a `--date A..B` range overrides them, with the inclusive
range end converted to an exclusive bound by adding one day. -/
def resolve_date_filters (after before : Option ℤ)
    (date_range : Option (Option ℤ × Option ℤ)) : Option ℤ × Option ℤ :=
  match date_range with
  | none => (after, before)
  | some (range_start, range_end) =>
    let a := match range_start with
      | some s => some s
      | none => after
    let b := match range_end with
      | some e => some (e + 1)
      | none => before
    (a, b)

/-- The value an amount filter compares: the split's value in its own
currency, replaced by its absolute value when `signed` is false
(cli.py:503-505). -/
def amount_value (signed : Bool) (v : ℚ) : ℚ :=
  if signed then v else |v|

/-- The amount range test of `cmd_grep` (cli.py:502-510) and `cmd_ledger`
(cli.py:614-622): inclusive on both bounds, on the signed-or-absolute
value. -/
def amount_pass (min_amt max_amt : Option ℚ) (signed : Bool) (v : ℚ) : Bool :=
  let sv := amount_value signed v
  (match min_amt with
   | some m => decide (m ≤ sv)
   | none => true)
  && (match max_amt with
      | some m => decide (sv ≤ m)
      | none => true)

/-- The text-search haystack of `cmd_grep` (cli.py:512-525): the
concatenation of the requested fields among description, memo and notes,
each followed by a space; the memo contributes its text or nothing when
absent; notes contribute only when requested, supported, and non-empty
(Python `if notes:` is false for `None` and for the empty string). -/
def build_searchable (fields : List String) (notes_supported : Bool)
    (descr : String) (memo : Option String) (notes_val : Option String) :
    String :=
  (if fields.contains "desc" then descr ++ " " else "")
  ++ (if fields.contains "memo" then memo.getD "" ++ " " else "")
  ++ (if fields.contains "notes" && notes_supported then
        match notes_val with
        | some n => if n = "" then "" else n ++ " "
        | none => ""
      else "")

/-- First-write-wins deduplication by a string key, skipping keys already
in `seen`.  This is the shape of both the `seen_tx_guids` filter of
`cmd_grep` (cli.py:530-534) and the split-GUID dedup loop of
`_splits_to_transactions` (cli.py:976-981). -/
def dedup_first {α : Type} (key : α → String) :
    List α → List String → List α
  | [], _ => []
  | x :: xs, seen =>
    if seen.contains (key x) then dedup_first key xs seen
    else x :: dedup_first key xs (key x :: seen)

/-- The per-query context assembled by `cmd_grep` before its split loop. -/
structure GrepCtx where
  book : Book
  account_set : Option (List Account)
  after : Option ℤ
  before : Option ℤ
  min_amt : Option ℚ
  max_amt : Option ℚ
  signed : Bool
  fields : List String
  notes_supported : Bool
  matcher : String → Bool
  dedupe : String
  full_tx : Bool

/-- The account-membership filter of `cmd_grep` (cli.py:492-493):
`if account_set and split.account not in account_set: continue` (an
empty set is falsy in Python, so it never filters). -/
def account_pass (book : Book) (aset : Option (List Account)) (s : Split) :
    Bool :=
  match aset with
  | none => true
  | some l => if l.isEmpty then true else l.contains (account_of book s)

/-- The compound per-split predicate of the `cmd_grep` loop
(cli.py:487-527): account membership, date window, amount range, then
text search over the requested fields. -/
def pass_filter (ctx : GrepCtx) (s : Split) : Bool :=
  let tx := tx_of ctx.book s
  account_pass ctx.book ctx.account_set s
  && date_keep ctx.after ctx.before tx.post_date
  && amount_pass ctx.min_amt ctx.max_amt ctx.signed s.value
  && ctx.matcher (build_searchable ctx.fields ctx.notes_supported
       tx.description s.memo (get_transaction_notes ctx.book tx.guid))

/-- Whether the `cmd_grep` loop deduplicates by transaction GUID
(cli.py:531): `if args.dedupe == "tx" or args.full_tx`. -/
def dedup_active (ctx : GrepCtx) : Bool :=
  ctx.dedupe == "tx" || ctx.full_tx

/-- The `(account, split)` iteration sequence of
`for acc in accounts: for split in acc.splits` (cli.py:487-488). -/
def candidate_pairs (book : Book) (accounts : List Account) :
    List (Account × Split) :=
  accounts.flatMap (fun a => (acc_splits book a).map (fun s => (a, s)))

/-- The matching `(split, transaction, account)` tuples before
deduplication: the pairs that pass all four filters. -/
def matched_tuples (ctx : GrepCtx) (pairs : List (Account × Split)) :
    List (Split × Transaction × Account) :=
  (pairs.filter (fun p => pass_filter ctx p.2)).map
    (fun p => (p.2, tx_of ctx.book p.2, p.1))

/-- The split-collecting loop of `cmd_grep` (cli.py:484-536): apply the
filters in order and, when deduplication is active, keep only the first
tuple seen for each transaction GUID. -/
def collect_splits (ctx : GrepCtx) :
    List (Account × Split) → List String →
    List (Split × Transaction × Account)
  | [], _ => []
  | (acc, s) :: rest, seen =>
    if pass_filter ctx s then
      let tx := tx_of ctx.book s
      if dedup_active ctx then
        if seen.contains tx.guid then collect_splits ctx rest seen
        else (s, tx, acc) :: collect_splits ctx rest (tx.guid :: seen)
      else (s, tx, acc) :: collect_splits ctx rest seen
    else collect_splits ctx rest seen

/-- The transaction GUID of a collected tuple. -/
def tuple_tx_guid (t : Split × Transaction × Account) : String :=
  t.2.1.guid

/-- The result of one currency conversion. -/
structure ConvResult where
  amount : ℚ
  currency : String
  fx_rate : Option ℚ
  converted : Bool
deriving DecidableEq

/-- Modelled from the spec: the rate lookup of `CurrencyConverter`
(`gcg/currency.py`, absent from `src/`): the most recent exchange rate
with effective date at most `as_of`, scanning backward at most
`lookback` days (spec section 4.3). -/
def lookup_rate (rates : List FxEntry) (lookback : ℤ) (from_c to_c : String)
    (as_of : ℤ) : Option ℚ :=
  let cands := rates.filter (fun r =>
    r.from_cur == from_c && r.to_cur == to_c
    && decide (r.eff_date ≤ as_of) && decide (as_of - lookback ≤ r.eff_date))
  (cands.foldl (fun best r =>
      match best with
      | none => some r
      | some b => if decide (b.eff_date < r.eff_date) then some r else some b)
    none).map (fun r => r.rate)

/-- Modelled from the spec: `CurrencyConverter.convert`
(`gcg/currency.py`, absent from `src/`, spec section 4.3): equal
currencies return the input unchanged with `converted = false` and no
rate; otherwise the looked-up rate is applied by decimal multiplication,
and a missing rate is a recoverable condition returning the original
amount and currency. -/
def convert (rates : List FxEntry) (lookback : ℤ) (amount : ℚ)
    (from_c to_c : String) (as_of : ℤ) : ConvResult :=
  if from_c == to_c then ⟨amount, from_c, none, false⟩
  else
    match lookup_rate rates lookback from_c to_c as_of with
    | some r => ⟨amount * r, to_c, some r, true⟩
    | none => ⟨amount, from_c, none, false⟩

/-- The currency a split is displayed in before conversion
(cli.py:878): the account's commodity mnemonic, `"???"` when absent. -/
def acc_currency (a : Account) : String :=
  a.commodity.getD "???"

/-- Modelled from the spec: `get_account_currencies` (`gcg/currency.py`,
absent from `src/`): the set of distinct currencies of the given
accounts. -/
def get_account_currencies (accounts : List Account) : List String :=
  (accounts.map acc_currency).dedup

/-- Modelled from the spec: `determine_display_currency`
(`gcg/currency.py`, absent from `src/`, spec section 4.3): mode `base`
always yields the configured base currency; modes `account` and `split`
yield no conversion target; mode `auto` (the default) yields the base
currency exactly when the given accounts span more than one currency. -/
def determine_display_currency (mode : String) (_splits_arg : List Split)
    (account_currencies : List String) (base : String) : Option String :=
  if mode == "base" then some base
  else if mode == "account" then none
  else if mode == "split" then none
  else if 1 < account_currencies.length then some base else none

/-- The target display currency computed by `_splits_to_rows`
(cli.py:862-871): `determine_display_currency` applied to the splits and
the account currencies of the matched `(split, tx, account)` tuples, and
the configured base currency. -/
def display_target (mode : String) (base : String)
    (data : List (Split × Transaction × Account)) : Option String :=
  determine_display_currency mode (data.map (fun t => t.1))
    (get_account_currencies (data.map (fun t => t.2.2))) base

/-- A display-ready result row (`SplitRow` of `gcg/output.py`). -/
structure SplitRow where
  date : ℤ
  description : String
  account : String
  memo : Option String
  notes : Option String
  amount : ℚ
  currency : String
  fx_rate : Option ℚ
  tx_guid : String
  split_guid : String
  amount_orig : Option ℚ
  currency_orig : Option String
deriving DecidableEq

/-- A full-transaction result row (`TransactionRow` of `gcg/output.py`). -/
structure TransactionRow where
  tx_guid : String
  date : ℤ
  description : String
  notes : Option String
  splits : List SplitRow
deriving DecidableEq

/-- Python truthiness of an optional rate (`if also_original and fx_rate:`,
cli.py:916): `None` and zero are falsy. -/
def fx_truthy : Option ℚ → Bool
  | none => false
  | some r => !(r == 0)

/-- The per-tuple row construction of `_splits_to_rows` (cli.py:873-920):
signed-or-absolute value, conversion when a target currency is set
(Python truthiness: a `None` or empty target skips conversion) and
differs from the split's own currency, notes resolution, and the
`--also-original` augmentation. -/
def mk_row (book : Book) (info : BookInfo) (lookback : ℤ)
    (signed also_orig : Bool) (target : Option String)
    (t : Split × Transaction × Account) : SplitRow :=
  let s := t.1
  let tx := t.2.1
  let acc := t.2.2
  let split_value := amount_value signed s.value
  let split_currency := acc_currency acc
  let conv :=
    match target with
    | some tc =>
      if !(tc == "") && !(tc == split_currency) then
        let r := convert book.prices lookback split_value split_currency tc
          tx.post_date
        (r.amount, r.currency, if r.converted then r.fx_rate else none)
      else (split_value, split_currency, none)
    | none => (split_value, split_currency, none)
  let notes := if info.has_notes_column || info.has_slots_notes then
      get_transaction_notes book tx.guid
    else none
  let row : SplitRow :=
    { date := tx.post_date, description := tx.description,
      account := acc.fullname, memo := s.memo, notes := notes,
      amount := conv.1, currency := conv.2.1, fx_rate := conv.2.2,
      tx_guid := tx.guid, split_guid := s.guid,
      amount_orig := none, currency_orig := none }
  if also_orig && fx_truthy conv.2.2 then
    { row with
      amount_orig := some split_value
      currency_orig := some split_currency }
  else row

/-- `_splits_to_rows` (cli.py:842-922): resolve the lookback window
(Python `or` falls through on `None` and `0`), compute the target
display currency once from the matched tuples, then build one row per
tuple. -/
def splits_to_rows (book : Book) (cfg : Config) (info : BookInfo)
    (currency_mode : String) (also_orig signed : Bool)
    (fx_lookback : Option ℤ)
    (data : List (Split × Transaction × Account)) : List SplitRow :=
  let lookback := match fx_lookback with
    | some n => if n == 0 then cfg.fx_lookback_days else n
    | none => cfg.fx_lookback_days
  let target := display_target currency_mode cfg.base_currency data
  data.map (mk_row book info lookback signed also_orig target)

/-- Stable insertion used to model Python's stable `sorted`: a new
element goes after every existing element `y` with `le y x`. -/
def stable_ins {α : Type} (le : α → α → Bool) (x : α) :
    List α → List α
  | [] => [x]
  | y :: ys => if le y x then y :: stable_ins le x ys else x :: y :: ys

/-- Python's `sorted(rows, key=..., reverse=...)`: a stable sort. -/
def stable_sort {α : Type} (le : α → α → Bool) (l : List α) : List α :=
  l.foldl (fun acc x => stable_ins le x acc) []

/-- Character-wise lexicographic comparison of strings (sort keys). -/
def chars_le : List Char → List Char → Bool
  | [], _ => true
  | _ :: _, [] => false
  | c :: cs, d :: ds => if c = d then chars_le cs ds else decide (c < d)

/-- String comparison for the `account` and `description` sort keys. -/
def str_le (a b : String) : Bool := chars_le a.toList b.toList

/-- The sort-key comparison of `_sort_rows` (cli.py:996-1007); an
unknown key falls back to `date`. -/
def sort_le (sort_key : String) (x y : SplitRow) : Bool :=
  if sort_key == "amount" then decide (x.amount ≤ y.amount)
  else if sort_key == "account" then str_le x.account y.account
  else if sort_key == "description" then str_le x.description y.description
  else decide (x.date ≤ y.date)

/-- `_sort_rows` (cli.py:996-1007): stable sort by the requested key,
with `reverse` flipping the comparison (Python's `sorted(...,
reverse=True)` is still stable). -/
def sort_rows (sort_key : String) (reverse : Bool) (rows : List SplitRow) :
    List SplitRow :=
  stable_sort (fun x y => if reverse then sort_le sort_key y x
    else sort_le sort_key x y) rows

/-- Python slice `rows[k:]` for an integer `k` (negative indices count
from the end, clamped). -/
def py_drop {α : Type} (rows : List α) (k : ℤ) : List α :=
  if 0 ≤ k then rows.drop k.toNat
  else rows.drop (rows.length - min rows.length (-k).toNat)

/-- Python slice `rows[:k]` for an integer `k`. -/
def py_take {α : Type} (rows : List α) (k : ℤ) : List α :=
  if 0 ≤ k then rows.take k.toNat
  else rows.take (rows.length - min rows.length (-k).toNat)

/-- The pagination step shared by `cmd_grep` (cli.py:552-556),
`cmd_ledger` (cli.py:632-635) and `cmd_accounts` (cli.py:412-416):
`if args.offset: rows = rows[args.offset:]` then
`if args.limit: rows = rows[:args.limit]`.  Python truthiness of an
optional integer: `None` and `0` are both falsy, so an absent or zero
option skips its slice. -/
def apply_limit_offset {α : Type} (offset limit : Option ℤ)
    (rows : List α) : List α :=
  let r1 := match offset with
    | some o => if o == 0 then rows else py_drop rows o
    | none => rows
  match limit with
  | some l => if l == 0 then r1 else py_take r1 l
  | none => r1

/-- The notes value attached to a transaction by `_splits_to_rows`
(cli.py:896-901) and `_splits_to_transactions` (cli.py:936-940): looked
up only when the book reports a notes capability. -/
def notes_of (book : Book) (info : BookInfo) (guid : String) :
    Option String :=
  if info.has_notes_column || info.has_slots_notes then
    get_transaction_notes book guid
  else none

/-- One accumulating entry of the `tx_map` of `_splits_to_transactions`. -/
structure TxEntry where
  tx : Transaction
  notes : Option String
  splits : List SplitRow
deriving DecidableEq

/-- The full expansion of one transaction (cli.py:947-971): one
`SplitRow` per split of the transaction, all carrying the given shared
notes value; the currency falls back to `""` here (cli.py:962-966). -/
def expand_tx (book : Book) (signed : Bool) (shared_notes : Option String)
    (tx : Transaction) : List SplitRow :=
  (tx_splits book tx).map (fun s =>
    let sacc := account_of book s
    { date := tx.post_date, description := tx.description,
      account := sacc.fullname, memo := s.memo, notes := shared_notes,
      amount := amount_value signed s.value,
      currency := sacc.commodity.getD "", fx_rate := none,
      tx_guid := tx.guid, split_guid := s.guid,
      amount_orig := none, currency_orig := none })

/-- Append the full expansion of `tx` to the `tx_map` entry keyed by its
GUID, using that entry's stored notes (cli.py:947-971). -/
def append_expansion (book : Book) (signed : Bool) (tx : Transaction)
    (m : List (String × TxEntry)) : List (String × TxEntry) :=
  m.map (fun pr =>
    if pr.1 == tx.guid then
      (pr.1, { pr.2 with
        splits := pr.2.splits ++ expand_tx book signed pr.2.notes tx })
    else pr)

/-- The grouping loop of `_splits_to_transactions` (cli.py:932-971):
for each matched tuple, create the `tx_map` entry on first encounter
(with the transaction's notes) and append the full expansion of the
transaction; insertion order is preserved. -/
def build_tx_map (book : Book) (info : BookInfo) (signed : Bool) :
    List (Split × Transaction × Account) → List (String × TxEntry) →
    List (String × TxEntry)
  | [], m => m
  | t :: rest, m =>
    let tx := t.2.1
    let m1 := if m.any (fun pr => pr.1 == tx.guid) then m
      else m ++ [(tx.guid, ⟨tx, notes_of book info tx.guid, []⟩)]
    build_tx_map book info signed rest (append_expansion book signed tx m1)

/-- `_splits_to_transactions` (cli.py:925-993): group matched tuples by
transaction GUID, expand each retained transaction to all of its splits,
and deduplicate each split list by split GUID (first wins). -/
def splits_to_transactions (book : Book) (info : BookInfo) (signed : Bool)
    (data : List (Split × Transaction × Account)) : List TransactionRow :=
  (build_tx_map book info signed data []).map (fun pr =>
    { tx_guid := pr.1, date := pr.2.tx.post_date,
      description := pr.2.tx.description, notes := pr.2.notes,
      splits := dedup_first (fun r => r.split_guid) pr.2.splits [] })

/-- Modelled from the spec: `get_account_by_pattern` (`gcg/book.py`,
absent from `src/`, spec section 4.1): an empty pattern matches every
account; a non-regex pattern matches as a literal substring (case rule
applied) of the full hierarchical name; a regex pattern matches with
`search` semantics via the pre-compiled matcher `rx`; with subtree
inclusion every descendant of a matched account joins the result, the
matched accounts themselves always included. -/
def get_account_by_pattern (book : Book) (pat : String)
    (is_regex case_sensitive include_subtree : Bool)
    (rx : String → Bool) : List Account :=
  let base := book.accounts.filter (fun a =>
    if pat = "" then true
    else if is_regex then rx a.fullname
    else if case_sensitive then str_contains a.fullname pat
    else str_contains (lower_str a.fullname) (lower_str pat))
  if include_subtree then
    book.accounts.filter (fun a =>
      base.any (fun m =>
        m.guid == a.guid || (m.fullname ++ ":").isPrefixOf a.fullname))
  else base

/-- The arguments of the `grep` command (after CLI parsing). -/
structure GrepArgs where
  text : String
  regex : Bool
  case_sensitive : Bool
  search_fields : List String
  account : Option String
  account_regex : Bool
  no_subtree : Bool
  after : Option ℤ
  before : Option ℤ
  date : Option (Option ℤ × Option ℤ)
  amount : Option (Option ℚ × Option ℚ)
  signed : Bool
  full_tx : Bool
  dedupe : String
  currency : String
  also_original : Bool
  fx_lookback : Option ℤ
  sort : String
  reverse : Bool
  offset : Option ℤ
  limit : Option ℤ

/-- The text-pattern compilation step of `cmd_grep` (cli.py:433-443):
a regex pattern goes through the compiler oracle and may fail; a
literal pattern is escaped and always compiles to a substring matcher. -/
def text_matcher (env : RegexCompiler) (args : GrepArgs) :
    Option (String → Bool) :=
  if args.regex then env args.text args.case_sensitive
  else some (lit_matcher args.case_sensitive args.text)

/-- The candidate-account step of `cmd_grep` (cli.py:456-472), run after
the book has been opened: with `--account`, resolve the pattern (the
account regex is compiled inside `get_account_by_pattern`, so a
malformed one surfaces here, yielding `none` for the uncaught
`InvalidPattern`); without it, every non-ROOT, non-TRADING account is a
candidate and no account set is installed. -/
def grep_account_stage (env : RegexCompiler) (book : Book)
    (args : GrepArgs) : Option (List Account × Option (List Account)) :=
  match args.account with
  | none => some (book.accounts.filter (fun a =>
      !(a.acc_type == "ROOT") && !(a.acc_type == "TRADING")), none)
  | some p =>
    if args.account_regex then
      match env p false with
      | none => none
      | some am =>
        let accs := get_account_by_pattern book p true false
          (!args.no_subtree) am
        some (accs, some accs)
    else
      let accs := get_account_by_pattern book p false false
        (!args.no_subtree) (fun _ => false)
      some (accs, some accs)

/-- The per-query filter context assembled by `cmd_grep`
(cli.py:445-481): notes support from the book capabilities, `notes`
discarded from the search fields when unsupported, date filters
resolved, the amount range unpacked. -/
def grep_ctx_of (book : Book) (info : BookInfo)
    (matcher : String → Bool) (args : GrepArgs)
    (aset : Option (List Account)) : GrepCtx :=
  let notes_supported := info.has_notes_column || info.has_slots_notes
  let fields := if notes_supported then args.search_fields
    else args.search_fields.filter (fun f => !(f == "notes"))
  let ab := resolve_date_filters args.after args.before args.date
  let mm := args.amount.getD (none, none)
  { book := book, account_set := aset, after := ab.1, before := ab.2,
    min_amt := mm.1, max_amt := mm.2, signed := args.signed,
    fields := fields, notes_supported := notes_supported,
    matcher := matcher, dedupe := args.dedupe, full_tx := args.full_tx }

/-- The matched tuples of one `cmd_grep` run (cli.py:483-536). -/
def grep_matched (book : Book) (info : BookInfo)
    (matcher : String → Bool) (args : GrepArgs)
    (accounts : List Account) (aset : Option (List Account)) :
    List (Split × Transaction × Account) :=
  collect_splits (grep_ctx_of book info matcher args aset)
    (candidate_pairs book accounts) []

/-- The split-row output stage of `cmd_grep` (cli.py:541-556): rows,
then sort, then offset, then limit. -/
def grep_rows (book : Book) (cfg : Config) (info : BookInfo)
    (args : GrepArgs)
    (matched : List (Split × Transaction × Account)) : List SplitRow :=
  apply_limit_offset args.offset args.limit
    (sort_rows args.sort args.reverse
      (splits_to_rows book cfg info args.currency args.also_original
        args.signed args.fx_lookback matched))

/-- The same grep query with different pagination and sort settings. -/
def set_pagination (args : GrepArgs) (off lim : Option ℤ) (sk : String)
    (rv : Bool) : GrepArgs :=
  { args with offset := off, limit := lim, sort := sk, reverse := rv }

/-- What a `cmd_grep` run hands to the formatter. -/
inductive GrepOutput where
  | nothing : GrepOutput
  | split_rows (rows : List SplitRow) : GrepOutput
  | transaction_rows (rows : List TransactionRow) : GrepOutput
deriving DecidableEq

/-- The observable outcome of one `cmd_grep` run: the returned exit code
(`none` models an uncaught exception escaping the `except BookOpenError`
handler), whether the ledger store was opened before termination, and
the formatted output. -/
structure GrepRun where
  exit_code : Option ℤ
  store_accessed : Bool
  output : GrepOutput
deriving DecidableEq

/-- `cmd_grep` (cli.py:431-576): compile the text pattern (exit 2 before
any store access on a malformed regex), open the book, resolve candidate
accounts (a malformed account regex raises `InvalidPattern`, which the
`except BookOpenError` handler does not catch), collect matching splits,
exit 1 on no matches, and otherwise emit sorted, paginated split rows —
or, with `--full-tx`, transaction rows built from the unsorted matched
tuples. -/
def cmd_grep (env : RegexCompiler) (cfg : Config) (book : Book)
    (info : BookInfo) (args : GrepArgs) : GrepRun :=
  match text_matcher env args with
  | none => ⟨some 2, false, GrepOutput.nothing⟩
  | some matcher =>
    match grep_account_stage env book args with
    | none => ⟨none, true, GrepOutput.nothing⟩
    | some (accounts, aset) =>
      let matched := grep_matched book info matcher args accounts aset
      if matched.isEmpty then ⟨some 1, true, GrepOutput.nothing⟩
      else
        let rows := grep_rows book cfg info args matched
        if args.full_tx then
          ⟨some 0, true, GrepOutput.transaction_rows
            (splits_to_transactions book info args.signed matched)⟩
        else ⟨some 0, true, GrepOutput.split_rows rows⟩

/-- The arguments of the `ledger` command (after CLI parsing). -/
structure LedgerArgs where
  account_pattern : String
  account_regex : Bool
  no_subtree : Bool
  after : Option ℤ
  before : Option ℤ
  date : Option (Option ℤ × Option ℤ)
  amount : Option (Option ℚ × Option ℚ)
  signed : Bool
  currency : String
  also_original : Bool
  fx_lookback : Option ℤ
  sort : String
  reverse : Bool
  offset : Option ℤ
  limit : Option ℤ

/-- The per-split filter of the `cmd_ledger` loop (cli.py:603-624):
date window then amount range (no text or membership filter). -/
def ledger_pass (book : Book) (after before : Option ℤ)
    (min_amt max_amt : Option ℚ) (signed : Bool) (s : Split) : Bool :=
  date_keep after before (tx_of book s).post_date
  && amount_pass min_amt max_amt signed s.value

/-- The row pipeline of `cmd_ledger` (cli.py:601-635): filter the
candidate splits, build rows, sort, then offset, then limit. -/
def cmd_ledger_rows (book : Book) (cfg : Config) (info : BookInfo)
    (largs : LedgerArgs) (accounts : List Account) : List SplitRow :=
  let ab := resolve_date_filters largs.after largs.before largs.date
  let mm := largs.amount.getD (none, none)
  let data := ((candidate_pairs book accounts).filter (fun p =>
      ledger_pass book ab.1 ab.2 mm.1 mm.2 largs.signed p.2)).map
    (fun p => (p.2, tx_of book p.2, p.1))
  apply_limit_offset largs.offset largs.limit
    (sort_rows largs.sort largs.reverse
      (splits_to_rows book cfg info largs.currency largs.also_original
        largs.signed largs.fx_lookback data))

/-- A display row of the `accounts` command (`AccountRow`). -/
structure AccountRow where
  name : String
  row_type : String
  currency : String
  guid : Option String
  depth : Nat
deriving DecidableEq

/-- The arguments of the `accounts` command (after CLI parsing). -/
structure AccountsArgs where
  pattern : String
  regex : Bool
  case_sensitive : Bool
  tree : Bool
  show_guids : Bool
  offset : Option ℤ
  limit : Option ℤ

/-- The row pipeline of `cmd_accounts` (cli.py:374-416): resolve the
pattern with subtree inclusion (the command has no `--no-subtree` flag,
so `hasattr` yields `True`), sort by full name, build display rows, then
offset, then limit. -/
def cmd_accounts_rows (book : Book) (rx : String → Bool)
    (aargs : AccountsArgs) : List AccountRow :=
  let accounts := get_account_by_pattern book aargs.pattern aargs.regex
    aargs.case_sensitive true rx
  let sorted := stable_sort (fun a b => str_le a.fullname b.fullname)
    accounts
  let rows := sorted.map (fun a =>
    { name := a.fullname, row_type := a.acc_type,
      currency := a.commodity.getD "",
      guid := if aargs.show_guids then some a.guid else none,
      depth := if aargs.tree then a.fullname.toList.count ':' else 0 })
  apply_limit_offset aargs.offset aargs.limit rows

/-- Invariant satisfied by every `tx_map` entry at loop boundaries of
`_splits_to_transactions`: the stored transaction carries the entry's
GUID, the stored notes are the transaction's notes, every accumulated
row carries the shared notes value, and every split of the stored
transaction is represented among the accumulated rows. -/
def entry_ok (book : Book) (info : BookInfo) (pr : String × TxEntry) :
    Prop :=
  pr.2.tx.guid = pr.1
  ∧ pr.2.notes = notes_of book info pr.1
  ∧ (∀ r ∈ pr.2.splits, r.notes = pr.2.notes)
  ∧ (∀ s ∈ tx_splits book pr.2.tx, ∃ r ∈ pr.2.splits,
      r.split_guid = s.guid)

/-- The number of transaction rows a run hands to the formatter. -/
def tx_output_count (r : GrepRun) : ℕ :=
  match r.output with
  | GrepOutput.transaction_rows l => l.length
  | _ => 0

/-- A regex-compiler oracle on which every pattern fails to compile. -/
def env_fail : RegexCompiler := fun _ _ => none

/-- A regex-compiler oracle on which every pattern compiles to a matcher
accepting everything. -/
def env_all : RegexCompiler := fun _ _ => some (fun _ => true)

/-- Fixture: the root account of the example book. -/
def acc_root : Account := ⟨"root", "Root", "ROOT", none⟩

/-- Fixture: a EUR bank account. -/
def acc_eur : Account := ⟨"a-eur", "Assets:Bank", "ASSET", some "EUR"⟩

/-- Fixture: a USD cash account. -/
def acc_usd : Account := ⟨"a-usd", "Assets:Cash", "ASSET", some "USD"⟩

/-- Fixture: a transaction in the EUR account. -/
def tx1 : Transaction := ⟨"t1", 100, "alpha payment"⟩

/-- Fixture: a second transaction in the EUR account. -/
def tx2 : Transaction := ⟨"t2", 101, "beta payment"⟩

/-- Fixture: a transaction in the USD account. -/
def tx3 : Transaction := ⟨"t3", 102, "other charge"⟩

/-- Fixture: first split of `tx1`. -/
def s1 : Split := ⟨"s1", "t1", "a-eur", 5, some "m1"⟩

/-- Fixture: second split of `tx1`. -/
def s2 : Split := ⟨"s2", "t1", "a-eur", -5, none⟩

/-- Fixture: the split of `tx2`. -/
def s3 : Split := ⟨"s3", "t2", "a-eur", 7, none⟩

/-- Fixture: the split of `tx3`. -/
def s4 : Split := ⟨"s4", "t3", "a-usd", 3, none⟩

/-- Fixture: an example book with one EUR and one USD account. -/
def book_w : Book :=
  ⟨[acc_root, acc_eur, acc_usd], [tx1, tx2, tx3], [s1, s2, s3, s4],
   [("t1", "note one")], [⟨"USD", "EUR", 90, 9/10⟩]⟩

/-- Fixture: book metadata with a notes column. -/
def info_w : BookInfo := ⟨"EUR", true, false⟩

/-- Fixture: a configuration with base currency EUR. -/
def cfg_w : Config := ⟨"EUR", 30⟩

/-- Fixture: the candidate accounts of a `grep` run without `--account`
on the example book (every non-ROOT, non-TRADING account). -/
def cands_w : List Account :=
  book_w.accounts.filter (fun a =>
    !(a.acc_type == "ROOT") && !(a.acc_type == "TRADING"))

/-- Fixture: a default `grep` argument record searching for `alpha`. -/
def args_w : GrepArgs :=
  { text := "alpha", regex := false, case_sensitive := false,
    search_fields := ["desc", "memo", "notes"], account := none,
    account_regex := false, no_subtree := false, after := none,
    before := none, date := none, amount := none, signed := false,
    full_tx := false, dedupe := "split", currency := "auto",
    also_original := false, fx_lookback := none, sort := "date",
    reverse := false, offset := none, limit := none }

/-- Fixture: a `grep` argument record with a malformed account regex. -/
def args_c3 : GrepArgs :=
  { args_w with account := some "(", account_regex := true }

/-- Fixture: a full-transaction `grep` with an offset, matching two
transactions of the example book. -/
def args_c4 : GrepArgs :=
  { args_w with text := "payment", full_tx := true, offset := some 1 }

/-- Fixture: a filter context on the example book with a text matcher
accepting everything and per-transaction deduplication. -/
def ctx_tx : GrepCtx :=
  { book := book_w, account_set := none, after := none, before := none,
    min_amt := none, max_amt := none, signed := false,
    fields := ["desc"], notes_supported := false,
    matcher := fun _ => true, dedupe := "tx", full_tx := false }

/-- Fixture: the candidate pairs of the example book. -/
def pairs_w : List (Account × Split) := candidate_pairs book_w cands_w

theorem collect_splits_eq (ctx : GrepCtx) (pairs : List (Account × Split))
    (seen : List String) :
    collect_splits ctx pairs seen =
      if dedup_active ctx then
        dedup_first tuple_tx_guid (matched_tuples ctx pairs) seen
      else matched_tuples ctx pairs := by
  induction pairs generalizing seen with
  | nil => simp [collect_splits, matched_tuples, dedup_first]
  | cons p rest ih =>
    obtain ⟨acc, s⟩ := p
    by_cases hp : pass_filter ctx s
    · have hm : matched_tuples ctx ((acc, s) :: rest) =
          (s, tx_of ctx.book s, acc) :: matched_tuples ctx rest := by
        simp [matched_tuples, List.filter_cons, hp]
      by_cases hd : dedup_active ctx
      · have hcol : collect_splits ctx ((acc, s) :: rest) seen =
            (if seen.contains (tx_of ctx.book s).guid then
              collect_splits ctx rest seen
             else (s, tx_of ctx.book s, acc) ::
               collect_splits ctx rest ((tx_of ctx.book s).guid :: seen)) := by
          simp [collect_splits, hp, hd]
        rw [hcol, hm]
        by_cases hseen : seen.contains (tx_of ctx.book s).guid
        · simp [hseen, dedup_first, tuple_tx_guid, ih, hd]
        · simp [hseen, dedup_first, tuple_tx_guid, ih, hd]
      · have hcol : collect_splits ctx ((acc, s) :: rest) seen =
            (s, tx_of ctx.book s, acc) :: collect_splits ctx rest seen := by
          simp [collect_splits, hp, hd]
        rw [hcol, hm, ih]
        simp [hd]
    · have hcol : collect_splits ctx ((acc, s) :: rest) seen =
          collect_splits ctx rest seen := by
        simp [collect_splits, hp]
      have hm : matched_tuples ctx ((acc, s) :: rest) =
          matched_tuples ctx rest := by
        simp [matched_tuples, List.filter_cons, hp]
      rw [hcol, hm, ih]

theorem dedup_first_mem_of {α : Type} (key : α → String) (l : List α)
    (seen : List String) (x : α) (hx : x ∈ dedup_first key l seen) :
    x ∈ l := by
  induction l generalizing seen with
  | nil => simp [dedup_first] at hx
  | cons y ys ih =>
    simp only [dedup_first] at hx
    by_cases hs : seen.contains (key y)
    · simp only [hs, if_true] at hx
      exact List.mem_cons_of_mem _ (ih _ hx)
    · simp only [hs, if_false, Bool.false_eq_true, if_neg,
        not_false_iff, List.mem_cons] at hx
      rcases hx with h | h
      · simp [h]
      · exact List.mem_cons_of_mem _ (ih _ h)

theorem dedup_first_first_wins {α : Type} (key : α → String) (l : List α)
    (seen : List String) (x : α) (hx : x ∈ dedup_first key l seen) :
    ¬ seen.contains (key x) ∧
      l.find? (fun y => key y == key x) = some x := by
  induction l generalizing seen with
  | nil => simp [dedup_first] at hx
  | cons y ys ih =>
    simp only [dedup_first] at hx
    by_cases hs : seen.contains (key y)
    · simp only [hs, if_true] at hx
      obtain ⟨hns, hfind⟩ := ih _ hx
      have hne : (key y == key x) = false := by
        rw [beq_eq_false_iff_ne]
        intro h
        rw [h] at hs
        exact hns hs
      constructor
      · exact hns
      · rw [List.find?_cons]
        simp only [hne]
        exact hfind
    · simp only [hs, if_false, Bool.false_eq_true, if_neg,
        not_false_iff, List.mem_cons] at hx
      rcases hx with h | h
      · subst h
        refine ⟨by simpa using hs, ?_⟩
        rw [List.find?_cons]
        simp
      · obtain ⟨hns, hfind⟩ := ih _ h
        simp only [List.contains_cons, Bool.or_eq_true, beq_iff_eq,
          not_or] at hns
        have hne : (key y == key x) = false := by
          rw [beq_eq_false_iff_ne]
          intro hyx
          exact hns.1 hyx.symm
        constructor
        · intro hc
          exact hns.2 hc
        · rw [List.find?_cons]
          simp only [hne]
          exact hfind

theorem dedup_first_nodup {α : Type} (key : α → String) (l : List α)
    (seen : List String) :
    ((dedup_first key l seen).map key).Nodup ∧
      ∀ k ∈ (dedup_first key l seen).map key, ¬ seen.contains k := by
  induction l generalizing seen with
  | nil => simp [dedup_first]
  | cons y ys ih =>
    simp only [dedup_first]
    by_cases hs : seen.contains (key y)
    · simp only [hs, if_true]
      exact ih seen
    · simp only [hs, if_false, Bool.false_eq_true, if_neg, not_false_iff,
        List.map_cons, List.nodup_cons]
      obtain ⟨hnd, hseen⟩ := ih (key y :: seen)
      refine ⟨⟨?_, hnd⟩, ?_⟩
      · intro hmem
        have := hseen _ hmem
        simp at this
      · intro k hk
        rcases List.mem_cons.mp hk with h | h
        · subst h
          simpa using hs
        · have := hseen _ h
          simp only [List.contains_cons, Bool.or_eq_true, not_or] at this
          intro hc
          exact this.2 hc

theorem dedup_first_key_mem {α : Type} (key : α → String) (l : List α)
    (seen : List String) (k : String) (hk : ¬ seen.contains k) :
    k ∈ (dedup_first key l seen).map key ↔ k ∈ l.map key := by
  induction l generalizing seen with
  | nil => simp [dedup_first]
  | cons y ys ih =>
    simp only [dedup_first]
    by_cases hs : seen.contains (key y)
    · have hky : k ≠ key y := by
        intro h
        rw [h] at hk
        exact hk hs
      simp only [hs, if_true, List.map_cons, List.mem_cons]
      rw [ih seen hk]
      simp [hky]
    · simp only [hs, if_false, Bool.false_eq_true, if_neg, not_false_iff,
        List.map_cons, List.mem_cons]
      by_cases hky : k = key y
      · simp [hky]
      · have hk' : ¬ (key y :: seen).contains k := by
          simp only [List.contains_cons, Bool.or_eq_true, not_or]
          constructor
          · intro hc
            rw [beq_iff_eq] at hc
            exact hky hc
          · intro hc
            exact hk hc
        rw [ih _ hk']

theorem expand_tx_notes (book : Book) (signed : Bool)
    (shared : Option String) (tx : Transaction) (r : SplitRow)
    (hr : r ∈ expand_tx book signed shared tx) : r.notes = shared := by
  simp only [expand_tx, List.mem_map] at hr
  obtain ⟨s, _, heq⟩ := hr
  subst heq
  rfl

theorem expand_tx_cover (book : Book) (signed : Bool)
    (shared : Option String) (tx : Transaction) (s : Split)
    (hs : s ∈ tx_splits book tx) :
    ∃ r ∈ expand_tx book signed shared tx, r.split_guid = s.guid :=
  ⟨_, List.mem_map_of_mem _ hs, rfl⟩

theorem append_expansion_ok (book : Book) (info : BookInfo) (signed : Bool)
    (tx : Transaction) (m : List (String × TxEntry))
    (hm : ∀ pr ∈ m, entry_ok book info pr ∨
      pr = (tx.guid, ⟨tx, notes_of book info tx.guid, []⟩)) :
    ∀ pr ∈ append_expansion book signed tx m, entry_ok book info pr := by
  intro pr hpr
  simp only [append_expansion, List.mem_map] at hpr
  obtain ⟨pr0, hpr0, heq⟩ := hpr
  rcases hm pr0 hpr0 with hok | hnew
  · by_cases hk : pr0.1 == tx.guid
    · rw [if_pos hk] at heq
      subst heq
      obtain ⟨hg, hn, hu, hc⟩ := hok
      refine ⟨hg, hn, ?_, ?_⟩
      · intro r hr
        rcases List.mem_append.mp hr with h | h
        · exact hu r h
        · exact expand_tx_notes book signed _ tx r h
      · intro s hs
        obtain ⟨r, hr, hrg⟩ := hc s hs
        exact ⟨r, List.mem_append_left _ hr, hrg⟩
    · rw [if_neg hk] at heq
      subst heq
      exact hok
  · subst hnew
    rw [if_pos (by simp)] at heq
    subst heq
    refine ⟨rfl, rfl, ?_, ?_⟩
    · intro r hr
      simp only [List.nil_append] at hr
      exact expand_tx_notes book signed _ tx r hr
    · intro s hs
      simp only [List.nil_append]
      exact expand_tx_cover book signed _ tx s hs

theorem build_tx_map_ok (book : Book) (info : BookInfo) (signed : Bool) :
    ∀ (data : List (Split × Transaction × Account))
      (m : List (String × TxEntry)),
      (∀ pr ∈ m, entry_ok book info pr) →
      ∀ pr ∈ build_tx_map book info signed data m,
        entry_ok book info pr := by
  intro data
  induction data with
  | nil =>
    intro m hm pr hpr
    exact hm pr (by simpa [build_tx_map] using hpr)
  | cons t rest ih =>
    intro m hm pr hpr
    simp only [build_tx_map] at hpr
    refine ih _ ?_ pr hpr
    intro pr' hpr'
    refine append_expansion_ok book info signed t.2.1 _ ?_ pr' hpr'
    intro pr0 hpr0
    by_cases hc : m.any (fun q => q.1 == t.2.1.guid)
    · rw [if_pos hc] at hpr0
      exact Or.inl (hm pr0 hpr0)
    · rw [if_neg hc] at hpr0
      rcases List.mem_append.mp hpr0 with h | h
      · exact Or.inl (hm pr0 h)
      · simp only [List.mem_singleton] at h
        exact Or.inr h

theorem alo_offset_zero {α : Type} (lim : Option ℤ) (l : List α) :
    apply_limit_offset (some 0) lim l = apply_limit_offset none lim l := by
  simp [apply_limit_offset]

theorem alo_limit_zero {α : Type} (off : Option ℤ) (l : List α) :
    apply_limit_offset off (some 0) l = apply_limit_offset off none l := by
  simp [apply_limit_offset]

theorem alo_all {α : Type} (l : List α) :
    apply_limit_offset none (some 0) l = l := by
  simp [apply_limit_offset]

/-- C1: for every split considered by the grep and ledger filters, the
date window is inclusive at the lower bound and exclusive at the upper
bound: a split dated exactly `after` is kept (whenever the upper bound
permits it at all), a split dated exactly `before` is rejected, and a
user-supplied inclusive range `A..B` is normalized by passing `B + 1` as
the exclusive upper bound; both the grep and ledger per-split predicates
gate on this window. -/
theorem date_window_inclusive_exclusive :
    (∀ (a : ℤ) (b : Option ℤ), (∀ x ∈ b, a < x) →
      date_keep (some a) b a = true)
    ∧ (∀ (b : ℤ) (a : Option ℤ), date_keep a (some b) b = false)
    ∧ (∀ (a0 b0 : Option ℤ) (rs re : ℤ),
        resolve_date_filters a0 b0 (some (some rs, some re)) =
          (some rs, some (re + 1)))
    ∧ (∀ (ctx : GrepCtx) (s : Split), pass_filter ctx s = true →
        date_keep ctx.after ctx.before (tx_of ctx.book s).post_date = true)
    ∧ (∀ (book : Book) (after before : Option ℤ)
        (mn mx : Option ℚ) (sg : Bool) (s : Split),
        ledger_pass book after before mn mx sg s = true →
        date_keep after before (tx_of book s).post_date = true) := by
  refine ⟨?_, ?_, ?_, ?_, ?_⟩
  · intro a b h
    cases b with
    | none => simp [date_keep]
    | some x =>
      have hx : a < x := h x rfl
      simp [date_keep, hx]
  · intro b a
    simp [date_keep]
  · intro a0 b0 rs re
    rfl
  · intro ctx s h
    simp only [pass_filter, Bool.and_eq_true] at h
    exact h.1.1.2
  · intro book after before mn mx sg s h
    simp only [ledger_pass, Bool.and_eq_true] at h
    exact h.1

/-- C1 witness: the theorem applied at concrete dates. -/
theorem date_window_inclusive_exclusive_witness :
    date_keep (some 5) (some 7) 5 = true
    ∧ date_keep (some 3) (some 7) 7 = false
    ∧ resolve_date_filters none none (some (some 1, some 9)) =
        (some 1, some 10) :=
  ⟨date_window_inclusive_exclusive.1 5 (some 7)
    (by intro x hx; simp only [Option.mem_def, Option.some.injEq] at hx; omega),
   date_window_inclusive_exclusive.2.1 7 (some 3),
   date_window_inclusive_exclusive.2.2.1 none none 1 9⟩

/-- C5: under dedup mode `per-transaction` (`--dedupe tx`), the filter
output contains at most one tuple per transaction GUID and that tuple is
the first matching one in iteration order; under mode `per-split`
(`--dedupe split`, without `--full-tx`) no deduplication occurs; and
requesting full-transaction expansion activates per-transaction
deduplication regardless of the requested mode. -/
theorem dedupe_modes :
    (∀ (ctx : GrepCtx) (pairs : List (Account × Split)),
      ctx.dedupe = "split" → ctx.full_tx = false →
      collect_splits ctx pairs [] = matched_tuples ctx pairs)
    ∧ (∀ (ctx : GrepCtx) (pairs : List (Account × Split)),
        dedup_active ctx = true →
        ((collect_splits ctx pairs []).map tuple_tx_guid).Nodup
        ∧ ∀ t ∈ collect_splits ctx pairs [],
            (matched_tuples ctx pairs).find?
              (fun u => tuple_tx_guid u == tuple_tx_guid t) = some t)
    ∧ (∀ ctx : GrepCtx, ctx.full_tx = true → dedup_active ctx = true) := by
  refine ⟨?_, ?_, ?_⟩
  · intro ctx pairs h1 h2
    rw [collect_splits_eq]
    simp [dedup_active, h1, h2]
  · intro ctx pairs hd
    rw [collect_splits_eq, if_pos hd]
    constructor
    · exact (dedup_first_nodup tuple_tx_guid (matched_tuples ctx pairs) []).1
    · intro t ht
      exact (dedup_first_first_wins tuple_tx_guid
        (matched_tuples ctx pairs) [] t ht).2
  · intro ctx h
    simp [dedup_active, h]

/-- C5 witness: on the example book, per-transaction mode yields
pairwise-distinct transaction GUIDs and per-split mode performs no
deduplication. -/
theorem dedupe_modes_witness :
    ((collect_splits ctx_tx pairs_w []).map tuple_tx_guid).Nodup
    ∧ collect_splits { ctx_tx with dedupe := "split" } pairs_w [] =
        matched_tuples { ctx_tx with dedupe := "split" } pairs_w :=
  ⟨(dedupe_modes.2.1 ctx_tx pairs_w (by decide)).1,
   dedupe_modes.1 { ctx_tx with dedupe := "split" } pairs_w rfl rfl⟩

/-- C7: when `signed` is false, the amount-range comparison uses the
absolute value of the split's value in its own currency: with minimum
amount 5, a split of value -7 is accepted and one of value -3 is
rejected; the comparison is insensitive to the sign of the value; and
the set of selected tuples does not depend on the currency mode, which
enters the pipeline only after selection. -/
theorem amount_filter_absolute :
    amount_pass (some 5) none false (-7) = true
    ∧ amount_pass (some 5) none false (-3) = false
    ∧ (∀ (mn mx : Option ℚ) (v : ℚ),
        amount_pass mn mx false v = amount_pass mn mx false |v|)
    ∧ (∀ (book : Book) (info : BookInfo) (m : String → Bool)
        (args : GrepArgs) (accounts : List Account)
        (aset : Option (List Account)) (mode : String),
        grep_matched book info m { args with currency := mode }
          accounts aset = grep_matched book info m args accounts aset) := by
  refine ⟨by decide, by decide, ?_, ?_⟩
  · intro mn mx v
    simp [amount_pass, amount_value, abs_abs]
  · intro book info m args accounts aset mode
    rfl

/-- C8: currency conversion is the identity when source and target
currencies are equal: for every amount, rate table, lookback and date,
`convert x C C d` returns the input amount and currency unchanged with
`converted = false` and no rate; and every result row whose native
(account) currency equals the target currency carries a null fx rate;
`_splits_to_rows` is the per-tuple row construction under the target
computed once from the matched tuples. -/
theorem convert_identity :
    (∀ (rates : List FxEntry) (lb : ℤ) (x : ℚ) (c : String) (d : ℤ),
      convert rates lb x c c d = ⟨x, c, none, false⟩)
    ∧ (∀ (book : Book) (info : BookInfo) (lb : ℤ) (sg ao : Bool)
        (t : Split × Transaction × Account),
        (mk_row book info lb sg ao (some (acc_currency t.2.2)) t).fx_rate
          = none)
    ∧ (∀ (book : Book) (cfg : Config) (info : BookInfo) (mode : String)
        (ao sg : Bool) (fl : Option ℤ)
        (data : List (Split × Transaction × Account)),
        splits_to_rows book cfg info mode ao sg fl data =
          data.map (mk_row book info
            (match fl with
             | some n => if n == 0 then cfg.fx_lookback_days else n
             | none => cfg.fx_lookback_days) sg ao
            (display_target mode cfg.base_currency data))) := by
  refine ⟨?_, ?_, ?_⟩
  · intro rates lb x c d
    simp [convert]
  · intro book info lb sg ao t
    simp [mk_row, fx_truthy]
  · intro book cfg info mode ao sg fl data
    rfl

/-- C9: the text-filter haystack is built from exactly the requested
fields among description, memo and notes: an absent memo contributes the
same as an empty one, an absent notes value the same as an empty one,
the notes field is ignored whenever the book reports no notes
capability, a field that is not requested never influences the haystack,
the context records the capability reported by the Book Store, and the
grep predicate gates on the matcher applied to this haystack — the
builder is a total function, so a missing field never aborts the
query. -/
theorem text_haystack_fields :
    (∀ (fields : List String) (ns : Bool) (descr : String)
      (nv : Option String),
      build_searchable fields ns descr none nv =
        build_searchable fields ns descr (some "") nv)
    ∧ (∀ (fields : List String) (ns : Bool) (descr : String)
        (memo : Option String),
        build_searchable fields ns descr memo none =
          build_searchable fields ns descr memo (some ""))
    ∧ (∀ (fields : List String) (descr : String) (memo : Option String)
        (nv nv' : Option String),
        build_searchable fields false descr memo nv =
          build_searchable fields false descr memo nv')
    ∧ (∀ (fields : List String) (ns : Bool) (descr descr' : String)
        (memo : Option String) (nv : Option String),
        fields.contains "desc" = false →
        build_searchable fields ns descr memo nv =
          build_searchable fields ns descr' memo nv)
    ∧ (∀ (fields : List String) (ns : Bool) (descr : String)
        (memo memo' : Option String) (nv : Option String),
        fields.contains "memo" = false →
        build_searchable fields ns descr memo nv =
          build_searchable fields ns descr memo' nv)
    ∧ (∀ (fields : List String) (ns : Bool) (descr : String)
        (memo : Option String) (nv nv' : Option String),
        fields.contains "notes" = false →
        build_searchable fields ns descr memo nv =
          build_searchable fields ns descr memo nv')
    ∧ (∀ (book : Book) (info : BookInfo) (matcher : String → Bool)
        (args : GrepArgs) (aset : Option (List Account)),
        (grep_ctx_of book info matcher args aset).notes_supported =
          (info.has_notes_column || info.has_slots_notes))
    ∧ (∀ (ctx : GrepCtx) (s : Split), pass_filter ctx s = true →
        ctx.matcher (build_searchable ctx.fields ctx.notes_supported
          (tx_of ctx.book s).description s.memo
          (get_transaction_notes ctx.book (tx_of ctx.book s).guid))
          = true) := by
  refine ⟨?_, ?_, ?_, ?_, ?_, ?_, ?_, ?_⟩
  · intro fields ns descr nv
    simp [build_searchable]
  · intro fields ns descr memo
    simp [build_searchable]
  · intro fields descr memo nv nv'
    simp [build_searchable]
  · intro fields ns descr descr' memo nv h
    have h' : "desc" ∉ fields := by simpa using h
    simp [build_searchable, h']
  · intro fields ns descr memo memo' nv h
    have h' : "memo" ∉ fields := by simpa using h
    simp [build_searchable, h']
  · intro fields ns descr memo nv nv' h
    have h' : "notes" ∉ fields := by simpa using h
    simp [build_searchable, h']
  · intro book info matcher args aset
    rfl
  · intro ctx s h
    simp only [pass_filter, Bool.and_eq_true] at h
    exact h.2

/-- C9 witness: the theorem applied at concrete field lists. -/
theorem text_haystack_fields_witness :
    build_searchable ["memo"] true "x" (some "m") none =
      build_searchable ["memo"] true "y" (some "m") none
    ∧ build_searchable ["desc"] true "x" (some "m") none =
        build_searchable ["desc"] true "x" (some "q") none :=
  ⟨text_haystack_fields.2.2.2.1 ["memo"] true "x" "y" (some "m") none
    (by decide),
   text_haystack_fields.2.2.2.2.1 ["desc"] true "x" (some "m") (some "q")
    none (by decide)⟩

/-- C10: for the pagination step shared by grep, ledger and accounts, an
offset of 0 or a limit of 0 is treated the same as the option being
absent (the slice is skipped), so a limit of 0 returns every row rather
than zero rows; the same holds at the row-pipeline level of all three
commands. -/
theorem pagination_zero_as_absent :
    (∀ (α : Type) (lim : Option ℤ) (l : List α),
      apply_limit_offset (some 0) lim l = apply_limit_offset none lim l)
    ∧ (∀ (α : Type) (off : Option ℤ) (l : List α),
        apply_limit_offset off (some 0) l = apply_limit_offset off none l)
    ∧ (∀ (α : Type) (l : List α), apply_limit_offset none (some 0) l = l)
    ∧ (∀ (book : Book) (cfg : Config) (info : BookInfo) (args : GrepArgs)
        (matched : List (Split × Transaction × Account)),
        grep_rows book cfg info { args with offset := some 0 } matched =
          grep_rows book cfg info { args with offset := none } matched
        ∧ grep_rows book cfg info { args with limit := some 0 } matched =
            grep_rows book cfg info { args with limit := none } matched)
    ∧ (∀ (book : Book) (cfg : Config) (info : BookInfo)
        (largs : LedgerArgs) (accounts : List Account),
        cmd_ledger_rows book cfg info { largs with offset := some 0 }
            accounts =
          cmd_ledger_rows book cfg info { largs with offset := none }
            accounts
        ∧ cmd_ledger_rows book cfg info { largs with limit := some 0 }
            accounts =
          cmd_ledger_rows book cfg info { largs with limit := none }
            accounts)
    ∧ (∀ (book : Book) (rx : String → Bool) (aargs : AccountsArgs),
        cmd_accounts_rows book rx { aargs with offset := some 0 } =
          cmd_accounts_rows book rx { aargs with offset := none }
        ∧ cmd_accounts_rows book rx { aargs with limit := some 0 } =
            cmd_accounts_rows book rx { aargs with limit := none }) := by
  refine ⟨?_, ?_, ?_, ?_, ?_, ?_⟩
  · intro α lim l
    exact alo_offset_zero lim l
  · intro α off l
    exact alo_limit_zero off l
  · intro α l
    exact alo_all l
  · intro book cfg info args matched
    exact ⟨alo_offset_zero _ _, alo_limit_zero _ _⟩
  · intro book cfg info largs accounts
    exact ⟨alo_offset_zero _ _, alo_limit_zero _ _⟩
  · intro book rx aargs
    exact ⟨alo_offset_zero _ _, alo_limit_zero _ _⟩

/-- C6: in full-transaction mode, every emitted transaction row is the
re-expansion of its retained transaction: its split list contains no two
entries with the same split GUID, every expanded split carries the same
shared notes value as the transaction row, and every split of the
retained transaction (matching or not) is represented in the expanded
list. -/
theorem full_tx_expansion :
    ∀ (book : Book) (info : BookInfo) (signed : Bool)
      (data : List (Split × Transaction × Account)) (r : TransactionRow),
      r ∈ splits_to_transactions book info signed data →
      ((r.splits.map (fun sr => sr.split_guid)).Nodup)
      ∧ (∀ sr ∈ r.splits, sr.notes = r.notes)
      ∧ (∃ tx : Transaction, tx.guid = r.tx_guid ∧
          ∀ s ∈ tx_splits book tx, ∃ sr ∈ r.splits,
            sr.split_guid = s.guid) := by
  intro book info signed data r hr
  simp only [splits_to_transactions, List.mem_map] at hr
  obtain ⟨pr, hpr, heq⟩ := hr
  obtain ⟨hg, hn, hu, hc⟩ :=
    build_tx_map_ok book info signed data [] (by simp) pr hpr
  subst heq
  refine ⟨?_, ?_, ?_⟩
  · exact (dedup_first_nodup (fun rr => rr.split_guid) pr.2.splits []).1
  · intro sr hsr
    exact hu sr (dedup_first_mem_of (fun rr => rr.split_guid)
      pr.2.splits [] sr hsr)
  · refine ⟨pr.2.tx, hg, ?_⟩
    intro s hs
    obtain ⟨r0, hr0, hg0⟩ := hc s hs
    have hkey : s.guid ∈ (dedup_first (fun rr => rr.split_guid)
        pr.2.splits []).map (fun rr => rr.split_guid) := by
      rw [dedup_first_key_mem (fun rr => rr.split_guid) pr.2.splits []
        s.guid (by simp)]
      exact List.mem_map.mpr ⟨r0, hr0, hg0⟩
    obtain ⟨sr, hsr, hsg⟩ := List.mem_map.mp hkey
    exact ⟨sr, hsr, hsg⟩

/-- C6 witness: the single transaction row produced from one matched
tuple of `tx1` on the example book: both splits of the transaction are
expanded, GUIDs are distinct and the notes value is shared. -/
theorem full_tx_expansion_witness :
    (((⟨"t1", 100, "alpha payment", some "note one",
        [⟨100, "alpha payment", "Assets:Bank", some "m1", some "note one",
           5, "EUR", none, "t1", "s1", none, none⟩,
         ⟨100, "alpha payment", "Assets:Bank", none, some "note one",
           5, "EUR", none, "t1", "s2", none, none⟩]⟩ :
        TransactionRow).splits.map (fun sr => sr.split_guid)).Nodup)
    ∧ (∀ sr ∈ (⟨"t1", 100, "alpha payment", some "note one",
        [⟨100, "alpha payment", "Assets:Bank", some "m1", some "note one",
           5, "EUR", none, "t1", "s1", none, none⟩,
         ⟨100, "alpha payment", "Assets:Bank", none, some "note one",
           5, "EUR", none, "t1", "s2", none, none⟩]⟩ :
        TransactionRow).splits, sr.notes =
        (⟨"t1", 100, "alpha payment", some "note one",
        [⟨100, "alpha payment", "Assets:Bank", some "m1", some "note one",
           5, "EUR", none, "t1", "s1", none, none⟩,
         ⟨100, "alpha payment", "Assets:Bank", none, some "note one",
           5, "EUR", none, "t1", "s2", none, none⟩]⟩ :
        TransactionRow).notes)
    ∧ (∃ tx : Transaction, tx.guid =
        (⟨"t1", 100, "alpha payment", some "note one",
        [⟨100, "alpha payment", "Assets:Bank", some "m1", some "note one",
           5, "EUR", none, "t1", "s1", none, none⟩,
         ⟨100, "alpha payment", "Assets:Bank", none, some "note one",
           5, "EUR", none, "t1", "s2", none, none⟩]⟩ :
        TransactionRow).tx_guid ∧
        ∀ s ∈ tx_splits book_w tx, ∃ sr ∈
          (⟨"t1", 100, "alpha payment", some "note one",
          [⟨100, "alpha payment", "Assets:Bank", some "m1", some "note one",
             5, "EUR", none, "t1", "s1", none, none⟩,
           ⟨100, "alpha payment", "Assets:Bank", none, some "note one",
             5, "EUR", none, "t1", "s2", none, none⟩]⟩ :
          TransactionRow).splits, sr.split_guid = s.guid) :=
  full_tx_expansion book_w info_w false [(s1, tx1, acc_eur)] _ (by decide)

/-- C2 counterexample: on the example book, a `grep` in `auto` currency
mode whose candidate accounts span two currencies (EUR and USD) but
whose matched rows all lie in EUR accounts resolves the target display
currency to `none`, not to the configured base currency as the claim
states. -/
theorem auto_currency_counterexample :
    args_w.currency = "auto"
    ∧ (get_account_currencies cands_w).length = 2
    ∧ display_target "auto" cfg_w.base_currency
        (grep_matched book_w info_w (lit_matcher false "alpha") args_w
          cands_w none) = none := by
  decide

/-- C2 (amended): in currency mode `auto`, the target display currency
is the configured base currency exactly when the accounts of the
*matched rows* span more than one currency, and `none` when they share a
single currency; the decision is a function of the matched rows'
accounts' currencies, not of the full candidate account set. -/
theorem auto_currency_matched_accounts :
    ∀ (base : String) (data : List (Split × Transaction × Account)),
      display_target "auto" base data =
        (if 1 < (get_account_currencies
            (data.map (fun t => t.2.2))).length then some base else none)
      ∧ ∀ (data' : List (Split × Transaction × Account)),
          get_account_currencies (data.map (fun t => t.2.2)) =
            get_account_currencies (data'.map (fun t => t.2.2)) →
          display_target "auto" base data =
            display_target "auto" base data' := by
  intro base data
  constructor
  · rfl
  · intro data' h
    simp only [display_target, determine_display_currency]
    rw [h]

/-- C2 witness: two matched-row lists with the same account currencies
get the same target. -/
theorem auto_currency_matched_accounts_witness :
    display_target "auto" "EUR" [(s1, tx1, acc_eur)] =
      display_target "auto" "EUR" [(s2, tx1, acc_eur)] :=
  (auto_currency_matched_accounts "EUR" [(s1, tx1, acc_eur)]).2
    [(s2, tx1, acc_eur)] (by decide)

/-- C3 counterexample: a `grep` whose account selector is a malformed
regex opens the ledger store before the pattern is compiled, and the
resulting `InvalidPattern` escapes the `except BookOpenError` handler
instead of producing the operational-error exit code 2. -/
theorem invalid_account_regex_counterexample :
    (cmd_grep env_fail cfg_w book_w info_w args_c3).store_accessed = true
    ∧ (cmd_grep env_fail cfg_w book_w info_w args_c3).exit_code ≠ some 2 := by
  decide

/-- C3 (amended): a malformed regex in the *text* selector is reported
before any access to the ledger store and the process exits with the
operational-error code 2; a malformed regex in the *account* selector is
detected only after the store has been opened and propagates as an
uncaught `InvalidPattern`, not as exit code 2. -/
theorem invalid_regex_reporting :
    ∀ (env : RegexCompiler) (cfg : Config) (book : Book)
      (info : BookInfo) (args : GrepArgs),
      (args.regex = true → env args.text args.case_sensitive = none →
        cmd_grep env cfg book info args =
          ⟨some 2, false, GrepOutput.nothing⟩)
      ∧ (∀ (p : String) (m : String → Bool),
          text_matcher env args = some m → args.account = some p →
          args.account_regex = true → env p false = none →
          cmd_grep env cfg book info args =
            ⟨none, true, GrepOutput.nothing⟩) := by
  intro env cfg book info args
  constructor
  · intro h1 h2
    have ht : text_matcher env args = none := by
      simp [text_matcher, h1, h2]
    simp [cmd_grep, ht]
  · intro p m hm hacc hareg henv
    have hstage : grep_account_stage env book args = none := by
      simp [grep_account_stage, hacc, hareg, henv]
    simp [cmd_grep, hm, hstage]

/-- C3 witness: a malformed text regex exits 2 without store access; a
malformed account regex is detected after the store is opened. -/
theorem invalid_regex_reporting_witness :
    cmd_grep env_fail cfg_w book_w info_w { args_w with regex := true } =
      ⟨some 2, false, GrepOutput.nothing⟩
    ∧ cmd_grep env_fail cfg_w book_w info_w args_c3 =
        ⟨none, true, GrepOutput.nothing⟩ :=
  ⟨(invalid_regex_reporting env_fail cfg_w book_w info_w
      { args_w with regex := true }).1 rfl rfl,
   (invalid_regex_reporting env_fail cfg_w book_w info_w args_c3).2 "("
      (lit_matcher false "alpha") rfl rfl rfl rfl⟩

/-- C4 counterexample: a full-transaction `grep` with offset 1 matching
two transactions of the example book emits both transaction rows, while
the sorted-then-sliced row sequence has one element — so in
full-transaction mode the output is not the sorted row sequence sliced
from offset to offset+limit. -/
theorem full_tx_pagination_counterexample :
    args_c4.offset = some 1
    ∧ tx_output_count (cmd_grep env_fail cfg_w book_w info_w args_c4) = 2
    ∧ (grep_rows book_w cfg_w info_w args_c4
        (grep_matched book_w info_w (lit_matcher false "payment") args_c4
          cands_w none)).length = 1 := by
  decide

/-- C4 (amended): offset and then limit are applied strictly after
sorting for split-row output (the output is exactly the sorted row
sequence sliced by offset and limit); in full-transaction mode the
ordered `TransactionRow` sequence is built directly from the matched
tuples, and sorting, offset and limit do not affect it. -/
theorem pagination_after_sort :
    ∀ (env : RegexCompiler) (cfg : Config) (book : Book)
      (info : BookInfo) (args : GrepArgs) (m : String → Bool)
      (accounts : List Account) (aset : Option (List Account)),
      text_matcher env args = some m →
      grep_account_stage env book args = some (accounts, aset) →
      grep_matched book info m args accounts aset ≠ [] →
      (args.full_tx = false →
        cmd_grep env cfg book info args =
          ⟨some 0, true, GrepOutput.split_rows (grep_rows book cfg info
            args (grep_matched book info m args accounts aset))⟩)
      ∧ (args.full_tx = true →
        (cmd_grep env cfg book info args =
          ⟨some 0, true, GrepOutput.transaction_rows
            (splits_to_transactions book info args.signed
              (grep_matched book info m args accounts aset))⟩)
        ∧ ∀ (off lim : Option ℤ) (sk : String) (rv : Bool),
            cmd_grep env cfg book info (set_pagination args off lim sk rv)
              = cmd_grep env cfg book info args) := by
  intro env cfg book info args m accounts aset h1 h2 h3
  have hemp : (grep_matched book info m args accounts aset).isEmpty
      = false := by
    simpa [List.isEmpty_iff] using h3
  constructor
  · intro hft
    simp [cmd_grep, h1, h2, hemp, hft]
  · intro hft
    have hrun : cmd_grep env cfg book info args =
        ⟨some 0, true, GrepOutput.transaction_rows
          (splits_to_transactions book info args.signed
            (grep_matched book info m args accounts aset))⟩ := by
      simp [cmd_grep, h1, h2, hemp, hft]
    refine ⟨hrun, ?_⟩
    intro off lim sk rv
    have h1' : text_matcher env (set_pagination args off lim sk rv)
        = some m := h1
    have h2' : grep_account_stage env book
        (set_pagination args off lim sk rv) = some (accounts, aset) := h2
    have hmeq : grep_matched book info m
        (set_pagination args off lim sk rv) accounts aset =
        grep_matched book info m args accounts aset := rfl
    have hft' : (set_pagination args off lim sk rv).full_tx = true := hft
    have hsg : (set_pagination args off lim sk rv).signed = args.signed :=
      rfl
    have hrun' : cmd_grep env cfg book info
        (set_pagination args off lim sk rv) =
        ⟨some 0, true, GrepOutput.transaction_rows
          (splits_to_transactions book info args.signed
            (grep_matched book info m args accounts aset))⟩ := by
      simp [cmd_grep, h1', h2', hmeq, hemp, hft', hsg]
    rw [hrun', hrun]

/-- C4 witness: on the example book without `--full-tx`, the output is
exactly the sorted, offset-and-limit-sliced row sequence. -/
theorem pagination_after_sort_witness :
    cmd_grep env_fail cfg_w book_w info_w args_w =
      ⟨some 0, true, GrepOutput.split_rows (grep_rows book_w cfg_w info_w
        args_w (grep_matched book_w info_w (lit_matcher false "alpha")
          args_w cands_w none))⟩ :=
  (pagination_after_sort env_fail cfg_w book_w info_w args_w
    (lit_matcher false "alpha") cands_w none rfl rfl (by decide)).1 rfl

end Gcg
